import Mathlib

/-!
Verification development for the rmktemp firmware fragment.

The repository has two Rust sources:
* `src/main.rs` — a BLE connection-state LED indicator: a global
  `BLE_STATE: AtomicU8` cell written by a simulator task and an event
  handler, and an indicator task that in a loop reads the cell, decodes
  it to a `BleState`, and runs one blink-pattern arm (timed LED level
  changes) before reading the cell again.
* `src/src/main.rs` — a startup EEPROM-clear routine: a button sampled
  30 times at 100 ms gates a 4-page flash erase; erase success halts the
  process, erase failure logs and falls through to normal startup.

The embedding below models timed behaviour with natural-number
milliseconds, the atomic cell as a function from time to the stored
byte (derived from a list of timed publications), and each pattern arm
as the list of primitive actions (set level / timed wait) its Rust
match arm performs.
-/

namespace Rmktemp

/-- The `BleState` enum of `src/main.rs` (lines 15–20). -/
inductive BleState where
  | Disconnected
  | Advertising
  | Connected
  | LowBattery
  deriving DecidableEq, Repr

/-- Initial value of the global `BLE_STATE: AtomicU8 = AtomicU8::new(0)`
(`src/main.rs` line 23; encoding comment: 0=disconnected, 1=advertising,
2=connected, 3=low battery). -/
def BLE_STATE_init : Nat := 0

/-- The decode match at the top of `ble_indicator_task`
(`src/main.rs` lines 65–71): recognized encodings 0–3, wildcard arm
defaulting to `Disconnected`. -/
def decodeBleState (n : Nat) : BleState :=
  match n with
  | 0 => BleState.Disconnected
  | 1 => BleState.Advertising
  | 2 => BleState.Connected
  | 3 => BleState.LowBattery
  | _ => BleState.Disconnected

/-- Which arm of the decode match fires: `true` exactly when the wildcard
(defensive default) arm of lines 65–71 is the one taken. -/
def decodeDefaultTaken (n : Nat) : Bool :=
  match n with
  | 0 => false
  | 1 => false
  | 2 => false
  | 3 => false
  | _ => true

/-- One primitive statement of a pattern arm body: `led.set_high()`,
`led.set_low()`, or `Timer::after(Duration::from_millis ms).await`. -/
inductive Action where
  | setHigh
  | setLow
  | wait (ms : Nat)
  deriving DecidableEq, Repr

/-- The body of each arm of the `match ble_state` in `ble_indicator_task`
(`src/main.rs` lines 73–106), statement by statement:
* `Disconnected`: high, 100 ms, low, 900 ms;
* `Advertising`: high, 250 ms, low, 250 ms;
* `Connected`: high, 1000 ms (`Duration::from_secs(1)`);
* `LowBattery`: `for _ in 0..3 { high, 100 ms, low, 100 ms }`, then 1000 ms. -/
def armActions : BleState → List Action
  | BleState.Disconnected =>
      [Action.setHigh, Action.wait 100, Action.setLow, Action.wait 900]
  | BleState.Advertising =>
      [Action.setHigh, Action.wait 250, Action.setLow, Action.wait 250]
  | BleState.Connected =>
      [Action.setHigh, Action.wait 1000]
  | BleState.LowBattery =>
      ((List.range 3).flatMap fun _ =>
        [Action.setHigh, Action.wait 100, Action.setLow, Action.wait 100])
      ++ [Action.wait 1000]

/-- Run an action list starting from LED level `led` (`true` = high).
Returns the final LED level together with the timed segments emitted:
one `(level, ms)` pair per wait, at the level the LED holds during it. -/
def runActions (led : Bool) : List Action → Bool × List (Bool × Nat)
  | [] => (led, [])
  | Action.setHigh :: rest => runActions true rest
  | Action.setLow :: rest => runActions false rest
  | Action.wait ms :: rest =>
      let r := runActions led rest
      (r.1, (led, ms) :: r.2)

/-- Milliseconds an action suspends for. -/
def actionMs : Action → Nat
  | Action.wait ms => ms
  | Action.setHigh => 0
  | Action.setLow => 0

/-- Total duration of one arm of the indicator match: the time between
two consecutive reads of `BLE_STATE`, since the task only re-reads the
cell at the top of its `loop`. -/
def armDuration (s : BleState) : Nat :=
  ((armActions s).map actionMs).sum

/-- The value the `BLE_STATE` cell holds at time `t`, given the list of
`(time, value)` publications (`store` calls), in program order, with
times listed non-decreasing. The cell starts at `BLE_STATE_init` and each
store overwrites it (latest value wins). -/
def cellAt (pubs : List (Nat × Nat)) (t : Nat) : Nat :=
  (pubs.filter fun p => decide (p.1 ≤ t)).foldl (fun _ p => p.2) BLE_STATE_init

/-- The value left in the cell after every listed publication has happened. -/
def lastVal (pubs : List (Nat × Nat)) : Nat :=
  pubs.foldl (fun _ p => p.2) BLE_STATE_init

/-- Times at which `ble_indicator_task` executes `BLE_STATE.load`
(`src/main.rs` line 64): the first read at time 0, and each later read
exactly one full arm (of the state just read) after the previous one. -/
def checkTimes (cell : Nat → Nat) : Nat → Nat
  | 0 => 0
  | n + 1 => checkTimes cell n +
      armDuration (decodeBleState (cell (checkTimes cell n)))

/-- The state whose pattern the indicator renders during its `n`-th loop
iteration: the decode of the cell value read at the `n`-th check. -/
def renderedState (cell : Nat → Nat) (n : Nat) : BleState :=
  decodeBleState (cell (checkTimes cell n))

/-- The LED level and cumulative timed-segment trace after `n` loop
iterations of the indicator task. The LED starts low:
`Output::new(p.P1_11, Level::Low)` (`src/main.rs` line 38). -/
def timeline (cell : Nat → Nat) : Nat → Bool × List (Bool × Nat)
  | 0 => (false, [])
  | n + 1 =>
      let prev := timeline cell n
      let step := runActions prev.1 (armActions (renderedState cell n))
      (step.1, prev.2 ++ step.2)

/-- The `states` schedule of `ble_simulator_task`
(`src/main.rs` lines 120–127): `(seconds, stored value)` pairs cycled
through forever. -/
def ble_simulator_schedule : List (Nat × Nat) :=
  [(5, 1), (10, 2), (5, 0), (3, 3), (5, 1), (5, 2)]

/-- Every value `ble_simulator_task` ever stores into `BLE_STATE`: the
initial `store(1)` (line 117) followed by the scheduled stores
(line 130). -/
def ble_simulator_stores : List Nat :=
  1 :: ble_simulator_schedule.map Prod.snd

/-- The `BleEvent` enum (`src/main.rs` lines 169–175). -/
inductive BleEvent where
  | Connected (handle : Nat)
  | Disconnected (handle : Nat)
  | AdvertisingStarted
  | BatteryLow

/-- The value `handle_ble_event` stores into `BLE_STATE` for each event
(`src/main.rs` lines 145–165). Every listed variant stores; the Rust
wildcard arm is unreachable for this four-variant enum. -/
def handle_ble_event : BleEvent → Nat
  | BleEvent.Connected _ => 2
  | BleEvent.Disconnected _ => 0
  | BleEvent.AdvertisingStarted => 1
  | BleEvent.BatteryLow => 3

/-! EEPROM-clear routine, `src/src/main.rs`. The button input is
modelled as `pressed : Nat → Bool` giving the result of `is_low()` at
the `j`-th sample, and the flash driver as `eraseOk : Nat → Bool`
giving whether `flash.erase(addr, addr + page_size)` succeeds. -/

/-- Sampling period of the hold-button loop: 100 ms (line 90). -/
def sample_period_ms : Nat := 100

/-- Number of button samples: 30, the loop bound at line 88
(comment: 3 s = 30 × 100 ms). -/
def hold_samples : Nat := 30

/-- The sampling loop of `should_clear_eeprom` (lines 88–94), from
sample index `i` with `n` iterations left: if the button reads pressed,
wait 100 ms and continue, otherwise return `false` immediately. -/
def shouldClearFrom (pressed : Nat → Bool) : Nat → Nat → Bool
  | _, 0 => true
  | i, n + 1 => if pressed i then shouldClearFrom pressed (i + 1) n else false

/-- `should_clear_eeprom` (`src/src/main.rs` lines 77–98): true exactly
when all 30 consecutive 100 ms samples find the button pressed. -/
def should_clear_eeprom (pressed : Nat → Bool) : Bool :=
  shouldClearFrom pressed 0 hold_samples

/-- `FLASH_PAGES` (line 102): number of 4 KB pages to erase. -/
def FLASH_PAGES : Nat := 4

/-- `flash_size` (line 108): 512 KB. -/
def flash_size : Nat := 0x80000

/-- `page_size` (line 109). -/
def page_size : Nat := 4096

/-- `start_page` (line 112). -/
def start_page : Nat := flash_size / page_size - FLASH_PAGES

/-- `start_addr` (line 113). -/
def start_addr : Nat := start_page * page_size

/-- The page start addresses the erase loop of `clear_eeprom`
(lines 118–124) visits, in order. -/
def pageAddrs : List Nat :=
  (List.range FLASH_PAGES).map fun i => start_addr + i * page_size

/-- The erase loop of `clear_eeprom` (lines 118–124) over a list of page
addresses: erase each in turn, returning on the first failure with the
error of line 122. The second component records the pages successfully
erased before the result was decided; on failure no later page is
touched. -/
def clearPages (eraseOk : Nat → Bool) : List Nat → Except String Unit × List Nat
  | [] => (Except.ok (), [])
  | a :: rest =>
      if eraseOk a then
        let r := clearPages eraseOk rest
        (r.1, a :: r.2)
      else (Except.error "Flash 擦除失败", [])

/-- `clear_eeprom` (`src/src/main.rs` lines 101–127). -/
def clear_eeprom (eraseOk : Nat → Bool) : Except String Unit × List Nat :=
  clearPages eraseOk pageAddrs

/-- How `main` (`src/src/main.rs` lines 29–48) proceeds after the
storage-clear section: halt in the `wfi` loop, or continue into normal
keyboard startup. -/
inductive MainOutcome where
  | haltedPendingPowerCycle
  | normalStartup
  deriving DecidableEq, Repr

/-- The storage-clear control flow of `main` (lines 29–40): run the
clear only when `should_clear_eeprom` holds; on `Ok` halt pending a
power cycle (lines 36–38), on `Err` log and fall through (line 32). -/
def mainStorageFlow (pressed : Nat → Bool) (eraseOk : Nat → Bool) : MainOutcome :=
  if should_clear_eeprom pressed then
    match (clear_eeprom eraseOk).1 with
    | Except.ok _ => MainOutcome.haltedPendingPowerCycle
    | Except.error _ => MainOutcome.normalStartup
  else MainOutcome.normalStartup

/-! Helper lemmas. -/

theorem armDuration_ge (s : BleState) : 500 ≤ armDuration s := by
  cases s <;> decide

theorem armDuration_le (s : BleState) : armDuration s ≤ 1600 := by
  cases s <;> decide

theorem le_checkTimes (cell : Nat → Nat) : ∀ n, n ≤ checkTimes cell n
  | 0 => Nat.le_refl 0
  | n + 1 => by
      have h := armDuration_ge (decodeBleState (cell (checkTimes cell n)))
      have ih := le_checkTimes cell n
      simp only [checkTimes]
      omega

theorem cellAt_late (pubs : List (Nat × Nat)) (T : Nat) (h : ∀ p ∈ pubs, p.1 ≤ T)
    (t : Nat) (ht : T ≤ t) : cellAt pubs t = lastVal pubs := by
  unfold cellAt lastVal
  rw [List.filter_eq_self.mpr]
  intro p hp
  exact decide_eq_true (le_trans (h p hp) ht)

theorem cellAt_redundant (A B : List (Nat × Nat)) (t0 v : Nat)
    (hA : ∀ p ∈ A, p.1 ≤ t0) (hv : lastVal A = v) (t : Nat) :
    cellAt (A ++ (t0, v) :: B) t = cellAt (A ++ B) t := by
  unfold cellAt
  unfold lastVal at hv
  rw [List.filter_append, List.filter_append, List.filter_cons]
  by_cases ht : t0 ≤ t
  · have hfA : A.filter (fun p => decide (p.1 ≤ t)) = A :=
      List.filter_eq_self.mpr fun p hp => decide_eq_true (le_trans (hA p hp) ht)
    simp only [decide_eq_true ht, if_pos]
    rw [hfA, List.foldl_append, List.foldl_append, List.foldl_cons, hv]
  · simp only [decide_eq_false ht, Bool.false_eq_true, if_neg, not_false_iff]

theorem shouldClearFrom_iff (pressed : Nat → Bool) :
    ∀ n i, shouldClearFrom pressed i n = true ↔ ∀ j, j < n → pressed (i + j) = true
  | 0, i => by simp [shouldClearFrom]
  | n + 1, i => by
      simp only [shouldClearFrom]
      by_cases h : pressed i = true
      · rw [if_pos h, shouldClearFrom_iff pressed n (i + 1)]
        constructor
        · intro hall j hj
          cases j with
          | zero => simpa using h
          | succ j =>
              have hw := hall j (by omega)
              have harith : i + 1 + j = i + (j + 1) := by omega
              rwa [harith] at hw
        · intro hall j hj
          have hw := hall (j + 1) (by omega)
          have harith : i + (j + 1) = i + 1 + j := by omega
          rwa [harith] at hw
      · rw [if_neg h]
        constructor
        · intro hc
          exact absurd hc (by simp)
        · intro hall
          have h0 := hall 0 (by omega)
          rw [Nat.add_zero] at h0
          exact absurd h0 h

theorem clearPages_fail (eraseOk : Nat → Bool) (bad : Nat) (rest : List Nat)
    (hb : eraseOk bad = false) :
    ∀ good : List Nat, (∀ a ∈ good, eraseOk a = true) →
      clearPages eraseOk (good ++ bad :: rest) = (Except.error "Flash 擦除失败", good)
  | [], _ => by simp [clearPages, hb]
  | a :: good, hg => by
      have ha : eraseOk a = true := hg a (List.mem_cons_self a good)
      have ih := clearPages_fail eraseOk bad rest hb good
        fun x hx => hg x (List.mem_cons_of_mem a hx)
      simp [clearPages, ha, ih]

theorem pageAddrs_eq :
    pageAddrs = [start_addr + 0 * page_size, start_addr + 1 * page_size,
      start_addr + 2 * page_size, start_addr + 3 * page_size] := rfl

/-! Claim theorems. -/

/-- C1, counterexample: the indicator only re-reads `BLE_STATE` after a
full match arm. With `Advertising` published at t=0 and `Connected` at
t=1 (just after the first read), the next read is at t=500, more than
250 ms after the publication; with `LowBattery` then `Connected`, the
next read is at t=1600, more than 1000 ms after the publication. This
refutes the claimed ≤250 ms (Advertising) and ≤1000 ms (LowBattery)
reaction bounds. -/
theorem C1_counterexample :
    renderedState (cellAt [(0, 1), (1, 2)]) 0 = BleState.Advertising
    ∧ checkTimes (cellAt [(0, 1), (1, 2)]) 1 = 500
    ∧ ¬ (checkTimes (cellAt [(0, 1), (1, 2)]) 1 ≤ 1 + 250)
    ∧ renderedState (cellAt [(0, 3), (1, 2)]) 0 = BleState.LowBattery
    ∧ checkTimes (cellAt [(0, 3), (1, 2)]) 1 = 1600
    ∧ ¬ (checkTimes (cellAt [(0, 3), (1, 2)]) 1 ≤ 1 + 1000) := by
  decide

/-- C1, amended: after a publication at any time `t` strictly after the
`n`-th read of `BLE_STATE`, the controller re-reads the cell (and hence
switches pattern) strictly within one full arm duration of the state
currently being rendered: 1000 ms for Disconnected, 500 ms for
Advertising, 1000 ms for Connected, 1600 ms for LowBattery. -/
theorem C1_reaction_latency (cell : Nat → Nat) (n t : Nat)
    (h : checkTimes cell n < t) :
    checkTimes cell (n + 1) < t + armDuration (renderedState cell n)
    ∧ armDuration BleState.Disconnected = 1000
    ∧ armDuration BleState.Advertising = 500
    ∧ armDuration BleState.Connected = 1000
    ∧ armDuration BleState.LowBattery = 1600 := by
  refine ⟨?_, by decide, by decide, by decide, by decide⟩
  have hstep : checkTimes cell (n + 1) =
      checkTimes cell n + armDuration (renderedState cell n) := rfl
  omega

/-- C1, witness of the amended theorem at a concrete input. -/
theorem C1_reaction_latency_witness :
    checkTimes (cellAt [(0, 1)]) 1 < 1 + armDuration (renderedState (cellAt [(0, 1)]) 0) :=
  (C1_reaction_latency (cellAt [(0, 1)]) 0 1 (by decide)).1

/-- C2, counterexample: with no publication at all, the controller's
first read at t=0 finds the initial cell value 0, decodes it to
`Disconnected`, and drives the 100 ms on / 900 ms off slow blink — it
does not block waiting for a first publication. -/
theorem C2_counterexample :
    renderedState (cellAt []) 0 = BleState.Disconnected
    ∧ (timeline (cellAt []) 1).2 = [(true, 100), (false, 900)] := by
  decide

/-- C2, amended: at startup the controller does not block: before any
publication has occurred (all publications at strictly positive times),
its first read returns the initial cell value 0, so it immediately
renders the Disconnected slow-blink pattern. -/
theorem C2_no_initial_block (pubs : List (Nat × Nat)) (h : ∀ p ∈ pubs, 0 < p.1) :
    cellAt pubs 0 = BLE_STATE_init
    ∧ renderedState (cellAt pubs) 0 = BleState.Disconnected
    ∧ (timeline (cellAt pubs) 1).2 = [(true, 100), (false, 900)] := by
  have hnil : pubs.filter (fun p => decide (p.1 ≤ 0)) = [] := by
    refine List.filter_eq_nil_iff.mpr fun p hp => ?_
    have := h p hp
    simp only [decide_eq_true_eq]
    omega
  have hc : cellAt pubs 0 = BLE_STATE_init := by
    unfold cellAt
    rw [hnil]
    rfl
  have hr : renderedState (cellAt pubs) 0 = BleState.Disconnected := by
    show decodeBleState (cellAt pubs 0) = BleState.Disconnected
    rw [hc]
    rfl
  refine ⟨hc, hr, ?_⟩
  show (runActions false (armActions (renderedState (cellAt pubs) 0))).2 = _
  rw [hr]
  rfl

/-- C2, witness of the amended theorem at a concrete input. -/
theorem C2_no_initial_block_witness :
    renderedState (cellAt [(3, 2)]) 0 = BleState.Disconnected :=
  (C2_no_initial_block [(3, 2)] (by decide)).2.1

/-- C3, counterexample: while `Connected` is current, the arm holds the
LED high and waits `Duration::from_secs(1)`, so consecutive reads of
`BLE_STATE` are 1000 ms apart — not every ~100 ms. -/
theorem C3_counterexample :
    renderedState (cellAt [(0, 2)]) 0 = BleState.Connected
    ∧ checkTimes (cellAt [(0, 2)]) 1 - checkTimes (cellAt [(0, 2)]) 0 = 1000
    ∧ ¬ (checkTimes (cellAt [(0, 2)]) 1 - checkTimes (cellAt [(0, 2)]) 0 ≤ 200) := by
  decide

/-- C3, amended: while the current state is Connected the controller
holds the LED steadily on (its arm is a single on-segment) and re-reads
the shared state every 1000 ms, not every ~100 ms. -/
theorem C3_connected_recheck (cell : Nat → Nat) (n : Nat) (led : Bool)
    (h : cell (checkTimes cell n) = 2) :
    renderedState cell n = BleState.Connected
    ∧ (runActions led (armActions BleState.Connected)).2 = [(true, 1000)]
    ∧ checkTimes cell (n + 1) = checkTimes cell n + 1000 := by
  refine ⟨?_, rfl, ?_⟩
  · unfold renderedState
    rw [h]
    rfl
  · show checkTimes cell n + armDuration (decodeBleState (cell (checkTimes cell n))) = _
    rw [h]
    rfl

/-- C3, witness of the amended theorem at a concrete input. -/
theorem C3_connected_recheck_witness :
    checkTimes (fun _ => 2) 1 = checkTimes (fun _ => 2) 0 + 1000 :=
  (C3_connected_recheck (fun _ => 2) 0 false rfl).2.2

/-- C4, counterexample: the Connected arm ends with the LED high at the
moment the controller re-reads the state, refuting the claim that every
pattern leaves the LED off at the end of each atomic sub-unit. -/
theorem C4_counterexample :
    (runActions false (armActions BleState.Connected)).1 = true
    ∧ ¬ ((runActions false (armActions BleState.Connected)).1 = false) := by
  decide

/-- C4, amended: the Disconnected, Advertising and LowBattery arms each
end with the LED off at the point where the controller re-reads the
state (in particular a LowBattery burst always completes down to its
trailing off level before a transition is noticed), whatever level the
LED had before; the Connected arm instead ends with the LED on. -/
theorem C4_exit_levels (led : Bool) :
    (runActions led (armActions BleState.Disconnected)).1 = false
    ∧ (runActions led (armActions BleState.Advertising)).1 = false
    ∧ (runActions led (armActions BleState.LowBattery)).1 = false
    ∧ (runActions led (armActions BleState.Connected)).1 = true :=
  ⟨rfl, rfl, rfl, rfl⟩

/-- C5: latest value wins. Once every publication has happened (all at
times ≤ T), every read from the T-th loop iteration on returns the last
published value, so the controller eventually renders exactly the
latest state; and when `Advertising` then `Connected` are both
published before the first read, every iteration renders `Connected`
and the superseded `Advertising` is never rendered. -/
theorem C5_latest_value_wins (pubs : List (Nat × Nat)) (T : Nat)
    (h : ∀ p ∈ pubs, p.1 ≤ T) :
    (∀ m, T ≤ m → renderedState (cellAt pubs) m = decodeBleState (lastVal pubs))
    ∧ (∀ n, renderedState (cellAt [(0, 1), (0, 2)]) n = BleState.Connected) := by
  constructor
  · intro m hm
    unfold renderedState
    rw [cellAt_late pubs T h _ (le_trans hm (le_checkTimes _ m))]
  · intro n
    have hfull : ∀ t, ([((0 : Nat), (1 : Nat)), (0, 2)].filter fun p => decide (p.1 ≤ t)) =
        [(0, 1), (0, 2)] := by
      intro t
      refine List.filter_eq_self.mpr fun p hp => ?_
      rcases List.mem_cons.mp hp with hp0 | hp1
      · rw [hp0]
        simp
      · rcases List.mem_singleton.mp hp1 with rfl
        simp
    have hconst : ∀ t, cellAt [(0, 1), (0, 2)] t = 2 := by
      intro t
      unfold cellAt
      rw [hfull]
      rfl
    unfold renderedState
    rw [hconst]
    rfl

/-- C5, witness at a concrete input. -/
theorem C5_latest_value_wins_witness :
    renderedState (cellAt [(0, 1), (4, 2)]) 5 = decodeBleState (lastVal [(0, 1), (4, 2)]) :=
  (C5_latest_value_wins [(0, 1), (4, 2)] 4 (by decide)).1 5 (by decide)

/-- C6: every numeric encoding outside 0–3 takes the defensive wildcard
arm of the decode match, decodes to `Disconnected`, and therefore drives
exactly the Disconnected pattern instead of faulting. -/
theorem C6_unrecognized_decodes_disconnected (n : Nat) (h : 4 ≤ n) :
    decodeBleState n = BleState.Disconnected
    ∧ decodeDefaultTaken n = true
    ∧ armActions (decodeBleState n) = armActions BleState.Disconnected := by
  obtain ⟨k, rfl⟩ : ∃ k, n = k + 4 := ⟨n - 4, by omega⟩
  exact ⟨rfl, rfl, rfl⟩

/-- C6, witness at the concrete out-of-range encoding 9. -/
theorem C6_unrecognized_decodes_disconnected_witness :
    decodeBleState 9 = BleState.Disconnected
    ∧ decodeDefaultTaken 9 = true
    ∧ armActions (decodeBleState 9) = armActions BleState.Disconnected :=
  C6_unrecognized_decodes_disconnected 9 (by decide)

/-- C7: while the cell holds the LowBattery encoding at two consecutive
reads, both iterations render LowBattery, and one LowBattery arm emits
exactly three 100 ms on / 100 ms off pairs followed by 1000 ms off
(ending with the LED off), whatever the LED level on entry — so the
burst repeats while no new state is published. -/
theorem C7_low_battery_pattern (cell : Nat → Nat) (n : Nat) (led : Bool)
    (h1 : cell (checkTimes cell n) = 3) (h2 : cell (checkTimes cell (n + 1)) = 3) :
    renderedState cell n = BleState.LowBattery
    ∧ (runActions led (armActions BleState.LowBattery)).2 =
        [(true, 100), (false, 100), (true, 100), (false, 100),
         (true, 100), (false, 100), (false, 1000)]
    ∧ (runActions led (armActions BleState.LowBattery)).1 = false
    ∧ renderedState cell (n + 1) = BleState.LowBattery := by
  refine ⟨?_, rfl, rfl, ?_⟩
  · unfold renderedState
    rw [h1]
    rfl
  · unfold renderedState
    rw [h2]
    rfl

/-- C7, witness at a concrete input. -/
theorem C7_low_battery_pattern_witness :
    renderedState (fun _ => 3) 1 = BleState.LowBattery :=
  (C7_low_battery_pattern (fun _ => 3) 0 false rfl rfl).2.2.2

/-- C8: publishing a value the cell already holds is invisible to the
controller: inserting a redundant publication (of the value the cell
holds at that point in program order) into any publication list leaves
the cell history, every read time, every rendered state and the whole
LED timeline unchanged. -/
theorem C8_redundant_publish_idempotent (A B : List (Nat × Nat)) (t0 v : Nat)
    (hA : ∀ p ∈ A, p.1 ≤ t0) (hv : lastVal A = v) :
    (∀ n, renderedState (cellAt (A ++ (t0, v) :: B)) n = renderedState (cellAt (A ++ B)) n)
    ∧ (∀ n, checkTimes (cellAt (A ++ (t0, v) :: B)) n = checkTimes (cellAt (A ++ B)) n)
    ∧ (∀ n, timeline (cellAt (A ++ (t0, v) :: B)) n = timeline (cellAt (A ++ B)) n) := by
  have hfun : cellAt (A ++ (t0, v) :: B) = cellAt (A ++ B) :=
    funext (cellAt_redundant A B t0 v hA hv)
  rw [hfun]
  exact ⟨fun _ => rfl, fun _ => rfl, fun _ => rfl⟩

/-- C8, witness: a redundant `Advertising` publication at t=5 during an
Advertising run leaves the three-iteration LED timeline unchanged. -/
theorem C8_redundant_publish_idempotent_witness :
    timeline (cellAt ([(0, 1)] ++ (5, 1) :: [(10, 2)])) 3 =
      timeline (cellAt ([(0, 1)] ++ [(10, 2)])) 3 :=
  (C8_redundant_publish_idempotent [(0, 1)] [(10, 2)] 5 1 (by decide) (by decide)).2.2 3

/-- C9: the storage-clear routine. The hold check succeeds exactly when
all 30 consecutive button samples (one per 100 ms, totalling 3000 ms)
find the button pressed, and any released sample skips the erase into
normal startup; a successful erase halts the process pending a power
cycle; an erase failure logs and continues into normal startup; and the
first failing page aborts the loop, leaving exactly the pages before it
erased. -/
theorem C9_eeprom_clear (pressed eraseOk : Nat → Bool) :
    (should_clear_eeprom pressed = true ↔ ∀ j, j < hold_samples → pressed j = true)
    ∧ sample_period_ms * hold_samples = 3000
    ∧ (should_clear_eeprom pressed = false →
        mainStorageFlow pressed eraseOk = MainOutcome.normalStartup)
    ∧ (should_clear_eeprom pressed = true → (clear_eeprom eraseOk).1 = Except.ok () →
        mainStorageFlow pressed eraseOk = MainOutcome.haltedPendingPowerCycle)
    ∧ (should_clear_eeprom pressed = true →
        ∀ msg, (clear_eeprom eraseOk).1 = Except.error msg →
        mainStorageFlow pressed eraseOk = MainOutcome.normalStartup)
    ∧ (∀ k, k < FLASH_PAGES → eraseOk (start_addr + k * page_size) = false →
        (∀ j, j < k → eraseOk (start_addr + j * page_size) = true) →
        clear_eeprom eraseOk =
          (Except.error "Flash 擦除失败",
            (List.range k).map fun j => start_addr + j * page_size)) := by
  refine ⟨?_, by decide, ?_, ?_, ?_, ?_⟩
  · have hiff := shouldClearFrom_iff pressed hold_samples 0
    simpa using hiff
  · intro hf
    simp [mainStorageFlow, hf]
  · intro ht hok
    simp [mainStorageFlow, ht, hok]
  · intro ht msg herr
    simp [mainStorageFlow, ht, herr]
  · intro k hk hbad hgood
    have hgood' : ∀ a ∈ (List.range k).map (fun j => start_addr + j * page_size),
        eraseOk a = true := by
      intro a ha
      simp only [List.mem_map, List.mem_range] at ha
      obtain ⟨j, hj, rfl⟩ := ha
      exact hgood j hj
    unfold clear_eeprom
    rw [pageAddrs_eq]
    have hk4 : k < 4 := hk
    interval_cases k
    · exact clearPages_fail eraseOk _
        [start_addr + 1 * page_size, start_addr + 2 * page_size, start_addr + 3 * page_size]
        hbad _ hgood'
    · exact clearPages_fail eraseOk _
        [start_addr + 2 * page_size, start_addr + 3 * page_size] hbad _ hgood'
    · exact clearPages_fail eraseOk _ [start_addr + 3 * page_size] hbad _ hgood'
    · exact clearPages_fail eraseOk _ [] hbad _ hgood'

/-- C9, witness: with the button held throughout, an always-failing
erase driver leads to normal startup, and an always-succeeding one
halts pending a power cycle. -/
theorem C9_eeprom_clear_witness :
    should_clear_eeprom (fun _ => true) = true
    ∧ mainStorageFlow (fun _ => true) (fun _ => false) = MainOutcome.normalStartup
    ∧ mainStorageFlow (fun _ => true) (fun _ => true) = MainOutcome.haltedPendingPowerCycle := by
  have h1 := C9_eeprom_clear (fun _ => true) (fun _ => false)
  have h2 := C9_eeprom_clear (fun _ => true) (fun _ => true)
  exact ⟨rfl, h1.2.2.2.2.1 rfl "Flash 擦除失败" rfl, h2.2.2.2.1 rfl rfl⟩

/-- C10: every store this program performs on `BLE_STATE` — the
simulator task's initial store, every store of its cyclic schedule, and
every arm of the BLE event handler — writes a recognized encoding in
0–3, so the decode's defensive wildcard arm is never taken on a value
produced inside this program. -/
theorem C10_stores_recognized :
    (ble_simulator_stores.all fun v => decide (v ≤ 3)) = true
    ∧ (ble_simulator_stores.all fun v => !decodeDefaultTaken v) = true
    ∧ (∀ e : BleEvent, handle_ble_event e ≤ 3)
    ∧ (∀ e : BleEvent, decodeDefaultTaken (handle_ble_event e) = false) := by
  refine ⟨by decide, by decide, fun e => ?_, fun e => ?_⟩ <;>
    cases e <;> simp [handle_ble_event, decodeDefaultTaken]

end Rmktemp
